import Mathlib

/-!
Verification development for the atylar versioned file store.

The Go sources are embedded shallowly:
  * Go strings (paths, file names, file contents) are `List Char`
    (`GoStr`); all the string functions the store uses
    (`filepath.Clean`, `filepath.Join`, `filepath.Base`,
    `strings.Split`, `strconv.ParseUint`, `strconv.FormatUint`, ...)
    are reimplemented below with Go's semantics on a Unix system,
    where `filepath.Separator` is the slash.
  * The filesystem is a flat state: an association list from
    root-relative segment paths to contents for regular files, a list
    of existing directories (the root is the empty segment list `[]`
    and is kept as a member of `dirs`), and a list of directories
    whose entries cannot be listed (`badDirs`), modelling environment
    failures (e.g. permission errors) of directory reads; every other
    primitive is assumed to succeed, matching the spec's view of the
    filesystem as a collaborator that may fail.
  * The `Store` structure bundles the Go struct's generation counter
    with this filesystem state (the Go `Root` string is abstracted
    away: all paths are relative to the store root).  Each operation
    of the source file is a function `Store → args → result × Store`
    (or `× Store` threaded through `Except`), sequencing the same
    system calls in the same order as the Go code.
-/

/-- Go strings are byte strings; the store only treats ASCII bytes
specially, so a list of characters is a faithful shallow embedding. -/
abbrev GoStr := List Char

/-- Notation-free conversion from Lean string literals into the model's
strings, used to write concrete inputs. -/
def gs (s : String) : GoStr := s.data

/-- A root-relative path, as the list of its name segments. -/
abbrev SegPath := List GoStr

/-- `strings.Split(s, "/")` (also the splitting `filepath.Clean` does on
a Unix system). `splitSep '/' "" = [""]` like in Go. -/
def splitSep (sep : Char) : GoStr → List GoStr
  | [] => [[]]
  | c :: rest =>
    match splitSep sep rest with
    | [] => if c = sep then [[], []] else [[c]]
    | h :: t => if c = sep then [] :: h :: t else (c :: h) :: t

/-- Drop all trailing occurrences of a character
(`strings.TrimRight(s, "/")` for `c = '/'`). -/
def dropTrailing (c : Char) (s : GoStr) : GoStr :=
  (s.reverse.dropWhile (fun d => d = c)).reverse

/-- The element-processing loop of Go's `filepath.Clean`: walks the
slash-separated elements left to right keeping an output stack
(`acc`, reversed).  Empty and `.` elements are dropped; `..` pops a
poppable element, is dropped at the root when `rooted`, and is kept
when not `rooted` and nothing can be popped. -/
def cleanElems (rooted : Bool) : List GoStr → List GoStr → List GoStr
  | [], acc => acc.reverse
  | e :: rest, acc =>
    if e = [] ∨ e = ['.'] then cleanElems rooted rest acc
    else if e = ['.', '.'] then
      match acc with
      | [] =>
        if rooted then cleanElems rooted rest []
        else cleanElems rooted rest [['.', '.']]
      | t :: acc' =>
        if t = ['.', '.'] then cleanElems rooted rest (e :: t :: acc')
        else cleanElems rooted rest acc'
    else cleanElems rooted rest (e :: acc)

/-- Go's `filepath.Clean` on a Unix system. -/
def goClean (p : GoStr) : GoStr :=
  if p = [] then ['.']
  else
    let rooted := p.head? = some '/'
    let comps := cleanElems rooted (splitSep '/' p) []
    let s := (if rooted then ['/'] else []) ++ List.intercalate ['/'] comps
    if s = [] then ['.'] else s

/-- Go's `filepath.Base` on a Unix system. -/
def goBase (p : GoStr) : GoStr :=
  if p = [] then ['.']
  else
    let q := dropTrailing '/' p
    if q = [] then ['/']
    else (q.reverse.takeWhile (fun d => d ≠ '/')).reverse

/-- Go's `filepath.Join` restricted to two operands: the non-empty
operands are joined with a slash and the result is cleaned. -/
def goJoin (a b : GoStr) : GoStr :=
  if a = [] ∧ b = [] then []
  else if a = [] then goClean b
  else if b = [] then goClean a
  else goClean (a ++ '/' :: b)

/-- `strings.TrimPrefix(e, ".")`: removes one leading dot if present. -/
def trimPrefixDot (e : GoStr) : GoStr :=
  if e.head? = some '.' then e.tail else e

/-- `strings.Replace(e, "@", "_", -1)`. -/
def replaceAtSign (e : GoStr) : GoStr :=
  e.map (fun c => if c = '@' then '_' else c)

/-- The value of a decimal digit character. -/
def digitVal (c : Char) : Nat := c.toNat - 48

/-- `strconv.ParseUint(s, 10, 64)` as used by the store: the Go call
returns a value and an error, and the callers ignore the error, so
this returns the value alone: the parsed number for a well-formed
decimal below `2^64`, the saturation value `2^64 - 1` on range
overflow (Go returns `MaxUint64` together with `ErrRange`), and `0`
on any syntax error (empty string or non-digit). -/
def goParseUint64 (s : GoStr) : Nat :=
  if s ≠ [] ∧ s.all Char.isDigit then
    let v := s.foldl (fun a c => 10 * a + digitVal c) 0
    if v < 2 ^ 64 then v else 2 ^ 64 - 1
  else 0

/-- The backwards scan of `getGenerationFromFileName`: `suffix` holds
the characters already passed (in original order); a separator stops
the scan with `0`, an `@` parses the suffix. -/
def genScan : List Char → List Char → Nat
  | [], _ => 0
  | c :: rest, suffix =>
    if c = '/' ∨ c = '\\' then 0
    else if c = '@' then goParseUint64 suffix
    else genScan rest (c :: suffix)

/-- `getGenerationFromFileName` of the source: the number after the
last `@` sign in the last element of the path, `0` when there is none
or it does not parse. -/
def getGenerationFromFileName (path : GoStr) : Nat :=
  if path = [] then 0
  else
    let t := dropTrailing '/' path
    match t.reverse with
    | [] => 0
    | lastc :: restRev => genScan restRev [lastc]

/-- The error kinds an operation can report.  `ErrIllegalPath` is the
only named error of the source; the others classify the `os`-level
failures the source passes through: a missing entry, an
`O_EXCL`-style collision, and any other I/O failure. -/
inductive Err where
  | illegalPath
  | notFound
  | alreadyExists
  | ioFailure
deriving DecidableEq, Repr

/-- Decidable equality on `Except`, so that concrete runs of the model
can be checked by evaluation. -/
instance instDecEqExcept [DecidableEq ε] [DecidableEq α] :
    DecidableEq (Except ε α)
  | Except.error a, Except.error b =>
    if h : a = b then Decidable.isTrue (by rw [h])
    else Decidable.isFalse (by intro hc; cases hc; exact h rfl)
  | Except.error _, Except.ok _ => Decidable.isFalse (by intro hc; cases hc)
  | Except.ok _, Except.error _ => Decidable.isFalse (by intro hc; cases hc)
  | Except.ok a, Except.ok b =>
    if h : a = b then Decidable.isTrue (by rw [h])
    else Decidable.isFalse (by intro hc; cases hc; exact h rfl)

/-- `checkPath` of the source: splits the cleaned path on the
separator and rejects a path any of whose elements contains `@` or
starts with a dot, or all of whose elements are empty. -/
def checkPath (path : GoStr) : Option Err :=
  let pathElements := splitSep '/' (goClean path)
  if pathElements.any (fun e => ('@' ∈ e) ∨ e.head? = some '.') then
    some Err.illegalPath
  else if pathElements.all (fun e => e = []) then some Err.illegalPath
  else none

/-- `fixPath` of the source: re-joins the cleaned path's elements,
trimming one leading dot from each element and replacing every `@`
with `_`. -/
def fixPath (path : GoStr) : GoStr :=
  let start : GoStr := if path.head? = some '/' then ['/'] else []
  let pathElements := splitSep '/' (goClean path)
  pathElements.foldl
    (fun fixed e => goJoin fixed (replaceAtSign (trimPrefixDot e))) start

/-- `strconv.FormatUint(n, 10)`: little-endian digit list of `n`. -/
def decDigitsAux : Nat → Nat → List Char
  | 0, _ => []
  | Nat.succ fuel, n =>
    if n = 0 then [] else Char.ofNat (48 + n % 10) :: decDigitsAux fuel (n / 10)

/-- `strconv.FormatUint(n, 10)` as a string: the little-endian digits
(computed with structural fuel, any fuel at least `n` being enough)
reversed. -/
def goFormatUint (n : Nat) : GoStr :=
  if n = 0 then ['0'] else (decDigitsAux n n).reverse

/-- The cleaned segments of `filepath.Clean("/" ++ path)`: the store
joins every user path under its root this way, so leading `..` are
dropped and the result contains no empty, `.` or `..` segments. -/
def rootedSegs (path : GoStr) : SegPath :=
  cleanElems true (splitSep '/' path) []

/-- `Store.realPath` of the source with the root abstracted away: the
root-relative segments of the current (`history = false`) or historic
(`history = true`) location of a user path. -/
def realPath (path : GoStr) (history : Bool) : SegPath :=
  (if history then [gs ".history"] else []) ++ rootedSegs path

/-- `filepath.Dir` on a real path, as segments: drop the last one. -/
def dirOf (p : SegPath) : SegPath := p.dropLast

/-- Appending `"@" ++ FormatUint(g)` to a real path string extends its
last segment (the store builds each historic entry name this way). -/
def appendGen (p : SegPath) (g : Nat) : SegPath :=
  p.dropLast ++ [p.getLastD [] ++ '@' :: goFormatUint g]

/-- Lexicographic byte order on names, the order in which Go's
`os.ReadDir` reports directory entries. -/
def strLt : GoStr → GoStr → Bool
  | [], [] => false
  | [], _ :: _ => true
  | _ :: _, [] => false
  | a :: as, b :: bs =>
    if a < b then true else if b < a then false else strLt as bs

/-- Insert into a list sorted by `lt`. -/
def insertSorted (lt : α → α → Bool) (x : α) : List α → List α
  | [] => [x]
  | y :: ys => if lt x y then x :: y :: ys else y :: insertSorted lt x ys

/-- Sort by `lt` (insertion sort; ties keep relative order, which no
result below depends on). -/
def sortBy (lt : α → α → Bool) (l : List α) : List α :=
  l.foldr (insertSorted lt) []

/-- Structural equality of contents, mirroring the byte-for-byte
comparison loop of `compareFiles`. -/
def strEq : GoStr → GoStr → Bool
  | [], [] => true
  | [], _ :: _ => false
  | _ :: _, [] => false
  | a :: as, b :: bs => if a = b then strEq as bs else false

/-- The store: the Go struct's generation counter together with the
modelled filesystem rooted at the store root (the Go `Root` string is
abstracted away).  `files` maps root-relative paths of regular files
to their contents, `dirs` lists the existing directories (the root is
the empty path and stays a member), and `badDirs` lists directories
whose entries cannot be read (environmental I/O failure). -/
structure Store where
  Generation : Nat
  files : List (SegPath × GoStr)
  dirs : List SegPath
  badDirs : List SegPath
deriving DecidableEq, Repr

/-- Content of the regular file at `p`, if one exists. -/
def Store.getFile (S : Store) (p : SegPath) : Option GoStr :=
  (S.files.find? (fun e => e.1 = p)).map (fun e => e.2)

/-- Is there a directory at `p`? -/
def Store.isDir (S : Store) (p : SegPath) : Bool := decide (p ∈ S.dirs)

/-- `os.Stat`: `some true` for a directory, `some false` for a regular
file, `none` when nothing exists at `p`. -/
def Store.stat (S : Store) (p : SegPath) : Option Bool :=
  if S.isDir p then some true
  else if (S.getFile p).isSome then some false
  else none

/-- Does anything exist at `p`? -/
def Store.existsNode (S : Store) (p : SegPath) : Bool :=
  (S.stat p).isSome

/-- The names of the entries of directory `p`, sorted as `os.ReadDir`
reports them.  Well-formed states list every intermediate directory
in `dirs`, so looking one level deep suffices. -/
def Store.childNames (S : Store) (p : SegPath) : List GoStr :=
  let fromDirs := S.dirs.filterMap
    (fun d => if d.dropLast = p ∧ d ≠ [] then some (d.getLastD []) else none)
  let fromFiles := S.files.filterMap
    (fun e => if e.1.dropLast = p ∧ e.1 ≠ [] then some (e.1.getLastD []) else none)
  sortBy strLt ((fromDirs ++ fromFiles).dedup)

/-- `os.ReadDir` / `File.Readdirnames`, threading the state: lists the
entry names of `p`, failing on a missing or unreadable directory. -/
def Store.readDirNames (S : Store) (p : SegPath) :
    Except Err (List GoStr) × Store :=
  if ¬ S.isDir p then (Except.error Err.notFound, S)
  else if decide (p ∈ S.badDirs) then (Except.error Err.ioFailure, S)
  else (Except.ok (S.childNames p), S)

/-- Replace or create the content of the regular file at `p`. -/
def Store.setFile (S : Store) (p : SegPath) (c : GoStr) : Store :=
  if (S.getFile p).isSome then
    { S with files := S.files.map (fun e => if e.1 = p then (p, c) else e) }
  else { S with files := S.files ++ [(p, c)] }

/-- Delete the regular file at `p` from the state. -/
def Store.delFile (S : Store) (p : SegPath) : Store :=
  { S with files := S.files.filter (fun e => ¬ e.1 = p) }

/-- Delete the directory at `p` from the state. -/
def Store.delDir (S : Store) (p : SegPath) : Store :=
  { S with dirs := S.dirs.filter (fun d => ¬ d = p) }

/-- `os.MkdirAll`: creates `p` and all its missing ancestors; fails
when a regular file occupies any prefix of `p`. -/
def Store.mkdirAll (S : Store) (p : SegPath) : Option Err × Store :=
  if p.inits.any (fun q => (S.getFile q).isSome) then (some Err.ioFailure, S)
  else
    let ds := p.inits.foldl
      (fun ds q => if decide (q ∈ ds) then ds else ds ++ [q]) S.dirs
    (none, { S with dirs := ds })

/-- `os.Remove`: deletes a regular file or an empty directory. -/
def Store.osRemove (S : Store) (p : SegPath) : Option Err × Store :=
  if (S.getFile p).isSome then (none, S.delFile p)
  else if S.isDir p then
    if S.childNames p = [] then (none, S.delDir p)
    else (some Err.ioFailure, S)
  else (some Err.notFound, S)

/-- `os.Rename`.  For a regular file source: fails when the target is a
directory or the target's parent is missing, otherwise moves the
content (silently replacing a regular file at the target, as POSIX
rename does).  For a directory source the whole subtree's paths are
re-prefixed, provided the target does not exist and its parent does
(the remaining POSIX corner cases never arise in the claims and are
conservatively reported as failures). -/
def Store.osRename (S : Store) (src dst : SegPath) : Option Err × Store :=
  if (S.getFile src).isSome then
    if S.isDir dst then (some Err.ioFailure, S)
    else if S.isDir (dirOf dst) then
      match S.getFile src with
      | some c => (none, (S.delFile src).setFile dst c)
      | none => (some Err.notFound, S)
    else (some Err.notFound, S)
  else if S.isDir src then
    if S.isDir (dirOf dst) ∧ ¬ S.existsNode dst then
      (none,
       { S with
         files := S.files.map
           (fun e => if src.isPrefixOf e.1 then (dst ++ e.1.drop src.length, e.2) else e),
         dirs := S.dirs.map
           (fun d => if src.isPrefixOf d then dst ++ d.drop src.length else d) })
    else (some Err.ioFailure, S)
  else (some Err.notFound, S)

/-- `os.Open(from)` followed by reading the handle to the end: the
content of a regular file; reading an opened directory fails. -/
def Store.readFile (S : Store) (p : SegPath) : Except Err GoStr :=
  match S.getFile p with
  | some c => Except.ok c
  | none => if S.isDir p then Except.error Err.ioFailure else Except.error Err.notFound

/-- `compareFiles` of the source: stats both paths (failing like
`os.Stat` does on a missing one), then compares sizes and bytes;
reading a directory is the modelled read failure. -/
def compareFiles (S : Store) (file1 file2 : SegPath) : Except Err Bool :=
  if ¬ S.existsNode file1 then Except.error Err.notFound
  else if ¬ S.existsNode file2 then Except.error Err.notFound
  else
    match S.getFile file1, S.getFile file2 with
    | some c1, some c2 => Except.ok (strEq c1 c2)
    | _, _ => Except.error Err.ioFailure

/-- `copy` of the source: opens the source, makes the target's parent
directories, opens the target with `O_CREATE|O_WRONLY` plus `O_TRUNC`
(overwrite) or `O_EXCL` (no overwrite), and copies the bytes.  When
the source turns out to be a directory the byte copy fails after the
target has already been created empty, exactly as in Go. -/
def copy (S : Store) (src dst : SegPath) (overwrite : Bool) :
    Option Err × Store :=
  if ¬ S.existsNode src then (some Err.notFound, S)
  else
    match S.mkdirAll (dirOf dst) with
    | (some e, S') => (some e, S')
    | (none, S1) =>
      if S1.isDir dst then
        (some (if overwrite then Err.ioFailure else Err.alreadyExists), S1)
      else if ¬ overwrite ∧ (S1.getFile dst).isSome then
        (some Err.alreadyExists, S1)
      else
        match S1.getFile src with
        | some content => (none, S1.setFile dst content)
        | none => (some Err.ioFailure, S1.setFile dst [])

/-- `Store.GetGeneration` of the source: increments (with the wrap of
`atomic.AddUint64` at `2^64`) and returns the counter when asked,
otherwise reads it. -/
def Store.GetGeneration (S : Store) (increment : Bool) : Nat × Store :=
  if increment then
    let g := (S.Generation + 1) % 2 ^ 64
    (g, { S with Generation := g })
  else (S.Generation, S)

/-- `Store.FileHistory` of the source: reads the directory holding the
path's historic entries, keeps the names extending `Base(path) ++ "@"`
whose generation parses to a non-zero value, and sorts the
generations newest first. -/
def Store.FileHistory (S : Store) (path : GoStr) :
    Except Err (List Nat) × Store :=
  match S.readDirNames (dirOf (realPath path true)) with
  | (Except.error e, S') => (Except.error e, S')
  | (Except.ok dir, S1) =>
    let base := goBase path ++ ['@']
    let history := dir.filterMap (fun n =>
      if base.isPrefixOf n then
        (let g := getGenerationFromFileName n
         if g ≠ 0 then some g else none)
      else none)
    (Except.ok (sortBy (fun a b : Nat => decide (b < a)) history), S1)

/-- The capturing tail of `Store.captureHistory` (its last two source
lines): allocate the next generation and copy the current file to the
new historic entry, with overwriting disabled.  The source discards
the value returned by `copy`, so the result is success whatever the
copy did. -/
def Store.doCapture (S : Store) (path : GoStr) (currentPath : SegPath) :
    Option Err × Store :=
  match S.GetGeneration true with
  | (g, S1) => (none, (copy S1 currentPath (appendGen (realPath path true) g) false).2)

/-- `Store.captureHistory` of the source: check the path, do nothing
for a missing current file, list the history (propagating its
failure), skip the capture when the newest entry equals the current
content, and otherwise capture. -/
def Store.captureHistory (S : Store) (path : GoStr) : Option Err × Store :=
  match checkPath path with
  | some e => (some e, S)
  | none =>
    let currentPath := realPath path false
    if ¬ S.existsNode currentPath then (none, S)
    else
      match S.FileHistory path with
      | (Except.error e, S') => (some e, S')
      | (Except.ok history, S1) =>
        match history with
        | latest :: _ =>
          let latestPath := appendGen (realPath path true) latest
          match compareFiles S1 currentPath latestPath with
          | Except.error e => (some e, S1)
          | Except.ok true => (none, S1)
          | Except.ok false => S1.doCapture path currentPath
        | [] => S1.doCapture path currentPath

/-- `Store.Write` of the source followed by the caller writing
`content` through the returned descriptor and closing it: capture,
make the parent directories, and create/truncate the current file.
Opening a directory for writing is the modelled I/O failure. -/
def Store.Write (S : Store) (path : GoStr) (content : GoStr) :
    Option Err × Store :=
  match S.captureHistory path with
  | (some e, S') => (some e, S')
  | (none, S1) =>
    match S1.mkdirAll (dirOf (realPath path false)) with
    | (some e, S') => (some e, S')
    | (none, S2) =>
      let p := realPath path false
      if S2.isDir p then (some Err.ioFailure, S2)
      else (none, S2.setFile p content)

/-- `Store.Open` of the source followed by reading the handle: the
current file for generation `0`, the historic entry
`path ++ "@" ++ generation` otherwise. -/
def Store.Open (S : Store) (path : GoStr) (generation : Nat) :
    Except Err GoStr × Store :=
  if generation = 0 then (S.readFile (realPath path false), S)
  else (S.readFile (appendGen (realPath path true) generation), S)

/-- `Store.Copy` of the source (parameters `from`/`to` are `src`/`dst`
here, `from` being reserved in Lean): capture the destination, then
byte-copy with overwriting enabled. -/
def Store.Copy (S : Store) (src dst : GoStr) : Option Err × Store :=
  match S.captureHistory dst with
  | (some e, S') => (some e, S')
  | (none, S1) => copy S1 (realPath src false) (realPath dst false) true

/-- Helper for `cleanDirectory`, structurally recursive over the
reversed path (each step ascends to `filepath.Dir`).  Mirrors the
source: a stat failure is returned, a non-directory returns nil, a
non-empty directory stops, an empty one is removed and the parent is
visited.  The Go code would keep ascending above the store root
(whose parent string is outside the model); within the store this
point is only reached when the root itself is empty, so the model
stops there after the removal. -/
def cleanDirAux : Store → List GoStr → Option Err × Store
  | S, [] =>
    match S.stat [] with
    | none => (some Err.notFound, S)
    | some false => (none, S)
    | some true =>
      if decide (([] : SegPath) ∈ S.badDirs) then (some Err.ioFailure, S)
      else if S.childNames [] = [] then (none, S.delDir [])
      else (none, S)
  | S, seg :: rest =>
    let p := (seg :: rest).reverse
    match S.stat p with
    | none => (some Err.notFound, S)
    | some false => (none, S)
    | some true =>
      if decide (p ∈ S.badDirs) then (some Err.ioFailure, S)
      else if S.childNames p = [] then cleanDirAux (S.delDir p) rest
      else (none, S)

/-- `cleanDirectory` of the source: removes an empty directory and
recursively its empty parents. -/
def cleanDirectory (S : Store) (p : SegPath) : Option Err × Store :=
  cleanDirAux S p.reverse

/-- `Store.Move` of the source: capture both ends, rename the current
file, then call `cleanDirectory` on the parent of the *destination*
(which still holds the file just moved in, so that call never removes
anything). -/
def Store.Move (S : Store) (src dst : GoStr) : Option Err × Store :=
  match S.captureHistory dst with
  | (some e, S') => (some e, S')
  | (none, S1) =>
    match S1.captureHistory src with
    | (some e, S') => (some e, S')
    | (none, S2) =>
      match S2.osRename (realPath src false) (realPath dst false) with
      | (some e, S') => (some e, S')
      | (none, S3) => cleanDirectory S3 (dirOf (realPath dst false))

/-- `Store.Remove` of the source: capture, delete the current file,
then prune its parent directory, returning whatever `cleanDirectory`
returns. -/
def Store.Remove (S : Store) (path : GoStr) : Option Err × Store :=
  match S.captureHistory path with
  | (some e, S') => (some e, S')
  | (none, S1) =>
    match S1.osRemove (realPath path false) with
    | (some e, S') => (some e, S')
    | (none, S2) => cleanDirectory S2 (dirOf (realPath path false))

/-- The maximal path depth present in the state: an upper bound on
every directory recursion, used as fuel. -/
def Store.maxDepth (S : Store) : Nat :=
  (S.dirs.map List.length ++ S.files.map (fun e => e.1.length)).foldl max 0

/-- The recursion of `Store.List` with explicit fuel (the Go recursion
descends the physical tree, so any fuel exceeding the state's maximal
depth is enough).  Entries named `.history` are skipped at every
level; files are reported as root-relative joined paths; with
`recursive` set, directories are descended into.  On a child error
the Go code returns the error together with the partial listing; only
the error is kept here, which no caller of the source distinguishes. -/
def listAux : Nat → Store → GoStr → Bool → Bool →
    Except Err (List GoStr) × Store
  | 0, S, _, _, _ => (Except.ok [], S)
  | Nat.succ n, S, path, history, recursive =>
    match S.readDirNames (realPath path history) with
    | (Except.error e, S') => (Except.error e, S')
    | (Except.ok names, S1) =>
      let entries := names.map
        (fun nm => (nm, S1.isDir (realPath path history ++ [nm])))
      entries.foldl
        (fun acc entry =>
          match acc with
          | (Except.error e, Sa) => (Except.error e, Sa)
          | (Except.ok listing, Sa) =>
            if entry.1 = gs ".history" then (Except.ok listing, Sa)
            else
              let entryPath := goJoin path entry.1
              let listing1 :=
                if ¬ entry.2 then listing ++ [entryPath] else listing
              if recursive ∧ entry.2 then
                match listAux n Sa entryPath history true with
                | (Except.error e, Sb) => (Except.error e, Sb)
                | (Except.ok children, Sb) =>
                  (Except.ok (listing1 ++ children), Sb)
              else (Except.ok listing1, Sa))
        (Except.ok [], S1)

/-- `Store.List` of the source: lists files (never directories) under
the current or historic location of `path`, root-relative. -/
def Store.List (S : Store) (path : GoStr) (history recursive : Bool) :
    Except Err (List GoStr) × Store :=
  listAux (S.maxDepth + 1) S path history recursive

/-- `Store.Stat` of the source, with `os.FileInfo` abstracted to the
only field any caller in the repository uses, `IsDir`. -/
def Store.Stat (S : Store) (path : GoStr) (history : Bool) :
    Except Err Bool × Store :=
  match checkPath path with
  | some e => (Except.error e, S)
  | none =>
    match S.stat (realPath path history) with
    | none => (Except.error Err.notFound, S)
    | some d => (Except.ok d, S)

/-- `filepath.Join` at the segment level, for names produced inside
recovery (a `fixPath` output can be `..`, which `Join` resolves). -/
def segJoin (p : SegPath) (n : GoStr) : SegPath :=
  cleanElems true (p ++ [n]) []

/-- The `mark` closure of `cleanDirectoryStructure`, with explicit
fuel: post-order walk computing the set of removable directories
under `p` (those whose subtree holds no regular file).  A stat
failure or unreadable directory aborts with that error, as in the
source. -/
def markClean : Nat → Store → SegPath → Except Err (List SegPath)
  | 0, _, _ => Except.ok []
  | Nat.succ n, S, p =>
    match S.stat p with
    | none => Except.error Err.notFound
    | some false => Except.ok []
    | some true =>
      if decide (p ∈ S.badDirs) then Except.error Err.ioFailure
      else
        let entries := (S.childNames p).map (fun c => (c, S.isDir (p ++ [c])))
        let folded := entries.foldl
          (fun acc entry =>
            match acc with
            | Except.error e => Except.error e
            | Except.ok ma =>
              if entry.2 then
                match markClean n S (p ++ [entry.1]) with
                | Except.error e => Except.error e
                | Except.ok res =>
                  Except.ok (ma.1 ++ res, ma.2 && decide ((p ++ [entry.1]) ∈ res))
              else Except.ok (ma.1, false))
          (Except.ok (([] : List SegPath), true))
        match folded with
        | Except.error e => Except.error e
        | Except.ok ma => Except.ok (if ma.2 then ma.1 ++ [p] else ma.1)

/-- `cleanDirectoryStructure` of the source: mark the removable
directories of the tree rooted at `base`, unmark `base` itself
(`delete(unneeded, path)`), and remove the rest deepest-first,
ignoring removal failures (`os.Remove`'s result is discarded). -/
def cleanDirectoryStructure (S : Store) (base : SegPath) :
    Option Err × Store :=
  match markClean (S.maxDepth + 1) S base with
  | Except.error e => (some e, S)
  | Except.ok unneeded =>
    let toBeDeleted := sortBy (fun a b : SegPath => decide (b.length < a.length))
      (unneeded.filter (fun d => ¬ d = base))
    (none, toBeDeleted.foldl
      (fun Sa d =>
        if Sa.isDir d ∧ Sa.childNames d = [] then Sa.delDir d else Sa) S)

/-- `os.Rename` with its result discarded, as `fixIllegalFilenames`
calls it. -/
def renameIgnoring (S : Store) (src dst : SegPath) : Store :=
  (S.osRename src dst).2

/-- The `fixChildrenOf` closure of `fixIllegalFilenames`, with
explicit fuel: walks the tree depth first over the directory
snapshot, skipping the top-level `.history`, descending into a
subdirectory before renaming it, and renaming every entry whose name
fails `checkPath` to its `fixPath` form (renames that fail are
ignored, as in the source). -/
def fixChildrenOf : Nat → Store → SegPath → SegPath → Option Err × Store
  | 0, S, _, _ => (none, S)
  | Nat.succ n, S, base, currentPath =>
    match S.stat currentPath with
    | none => (some Err.notFound, S)
    | some false => (none, S)
    | some true =>
      if decide (currentPath ∈ S.badDirs) then (some Err.ioFailure, S)
      else
        let entries := (S.childNames currentPath).map
          (fun c => (c, S.isDir (currentPath ++ [c])))
        entries.foldl
          (fun acc entry =>
            match acc with
            | (some e, Sa) => (some e, Sa)
            | (none, Sa) =>
              if base = currentPath ∧ entry.1 = gs ".history" then (none, Sa)
              else
                let afterRec :=
                  if entry.2 then fixChildrenOf n Sa base (currentPath ++ [entry.1])
                  else (none, Sa)
                match afterRec with
                | (some e, Sb) => (some e, Sb)
                | (none, Sb) =>
                  if (checkPath entry.1).isSome then
                    (none, renameIgnoring Sb (currentPath ++ [entry.1])
                      (segJoin currentPath (fixPath entry.1)))
                  else (none, Sb))
          (none, S)

/-- `fixIllegalFilenames` of the source. -/
def fixIllegalFilenames (S : Store) (base : SegPath) : Option Err × Store :=
  fixChildrenOf (S.maxDepth + 1) S base base

/-- The paths `filepath.WalkDir` visits inside the historic tree: the
`.history` directory itself and every directory and file beneath it
(the traversal order is irrelevant to the running maximum `New`
computes over them). -/
def historyWalkPaths (S : Store) : List SegPath :=
  S.dirs.filter (fun d => List.isPrefixOf [gs ".history"] d)
    ++ (S.files.map (fun e => e.1)).filter
        (fun p => List.isPrefixOf [gs ".history"] p)

/-- The generation-recovery walk of `New`: raise the counter to every
generation parsed from a visited path.  The generation of a full path
equals that of its last segment, the backwards scan stopping at the
first separator. -/
def historyGens (S : Store) : List Nat :=
  (historyWalkPaths S).map (fun p => getGenerationFromFileName (p.getLastD []))

/-- The generation-recovery fold of `New` over the walked paths. -/
def initFromTree (S : Store) : Store :=
  let g := (historyGens S).foldl (fun a g => if g > a then g else a) S.Generation
  { S with Generation := g }

/-- `New` of the source: start the counter at `1`, make the root,
prune empty directories, repair illegal names, make `.history`, and
raise the counter to the maximal generation found in the historic
tree. -/
def New (S : Store) : Option Err × Store :=
  match ({ S with Generation := 1 } : Store).mkdirAll [] with
  | (some e, S') => (some e, S')
  | (none, S1) =>
    match cleanDirectoryStructure S1 [] with
    | (some e, S') => (some e, S')
    | (none, S2) =>
      match fixIllegalFilenames S2 [] with
      | (some e, S') => (some e, S')
      | (none, S3) =>
        match S3.mkdirAll [gs ".history"] with
        | (some e, S') => (some e, S')
        | (none, S4) => (none, initFromTree S4)

/-- A store whose current file `f` holds content `c` and which has no
historic entries yet. -/
def c7Store (c : GoStr) : Store :=
  { Generation := 1, files := [([gs "f"], c)]
  , dirs := [[], [gs ".history"]], badDirs := [] }

/-- The same store after one `Write` of the identical content `c`: the
prior content (equal to `c`) was captured as generation 2. -/
def c7Mid (c : GoStr) : Store :=
  { Generation := 2
  , files := [([gs "f"], c), ([gs ".history", gs "f@2"], c)]
  , dirs := [[], [gs ".history"]], badDirs := [] }

/-- The maximum of a list of naturals (0 when empty). -/
def listMaxNat (l : List Nat) : Nat := l.foldr max 0

/-- The empty filesystem, before any store has been opened in it. -/
def emptyStore : Store :=
  { Generation := 0, files := [], dirs := [], badDirs := [] }

/-- A freshly opened store on an empty filesystem. -/
def freshStore : Store := (New emptyStore).2

/-- A store holding a current file `f` (content `X`) whose history
already contains an entry named `f@6` (content `Y`) although the
counter is still 5, so the next capture's freshly allocated
generation collides with the existing entry name. -/
def collisionStore : Store :=
  { Generation := 5
  , files := [([gs "f"], gs "X"), ([gs ".history", gs "f@6"], gs "Y")]
  , dirs := [[], [gs ".history"]], badDirs := [] }

/-- First write of the spec's two-write scenario. -/
def c2w1 : Option Err × Store := freshStore.Write (gs "dir/file") (gs "Hello!")

/-- Second write of the spec's two-write scenario. -/
def c2w2 : Option Err × Store := c2w1.2.Write (gs "dir/file") (gs "World!")

/-- The same scenario against a root-level path. -/
def c2v1 : Option Err × Store := freshStore.Write (gs "file") (gs "Hello!")

/-- Second root-level write of the scenario. -/
def c2v2 : Option Err × Store := c2v1.2.Write (gs "file") (gs "World!")

/-- A store with one current file `dir/file` inside a directory, whose
history directory for `dir` already exists (as the repository's own
tests arrange). -/
def moveStore : Store :=
  { Generation := 1
  , files := [([gs "dir", gs "file"], gs "A")]
  , dirs := [[], [gs ".history"], [gs ".history", gs "dir"], [gs "dir"]]
  , badDirs := [] }

/-- Like `moveStore` but with the parent directory of the current file
unreadable, so that the pruning step after a successful delete
fails. -/
def pruneFailStore : Store :=
  { Generation := 1
  , files := [([gs "d", gs "f"], gs "A")]
  , dirs := [[], [gs ".history"], [gs ".history", gs "d"], [gs "d"]]
  , badDirs := [[gs "d"]] }

/-- The on-disk state of the repository test `Infer generation`: one
pre-existing historic entry `dir/file@123`. -/
def inferStore : Store :=
  { Generation := 0
  , files := [([gs ".history", gs "dir", gs "file@123"], gs "")]
  , dirs := [[], [gs ".history"], [gs ".history", gs "dir"]], badDirs := [] }

/-- A store that was opened, never written to, and is being reopened:
its `.history` directory exists and is empty. -/
def reopenedStore : Store :=
  { Generation := 1, files := [], dirs := [[], [gs ".history"]], badDirs := [] }

/-- Write of content `A` to a fresh store, preparing the
counterexample chain of claim C7. -/
def c7a : Option Err × Store := freshStore.Write (gs "f") (gs "A")

/-- First of two successive writes of the identical content `B`. -/
def c7b1 : Option Err × Store := c7a.2.Write (gs "f") (gs "B")

/-- Second of two successive writes of the identical content `B`. -/
def c7b2 : Option Err × Store := c7b1.2.Write (gs "f") (gs "B")

/-- The mock store directory of the repository test helper
`prepareComplexTest`: one pre-existing historic entry
`dir/file@123`, three current files, and an empty directory pair. -/
def prepared : Store :=
  { Generation := 0
  , files := [([gs ".history", gs "dir", gs "file@123"], gs "")
            , ([gs "dir", gs "file"], gs "Hello!")
            , ([gs "dir", gs "file2"], gs "Hello from the second file!")
            , ([gs "dir", gs "dir2", gs "file3"], gs "Hello from the third file!")]
  , dirs := [[], [gs ".history"], [gs ".history", gs "dir"], [gs "dir"]
           , [gs "dir", gs "dir2"], [gs "empty"], [gs "empty", gs "directory"]]
  , badDirs := [] }

/-- The store opened on the mock directory. -/
def preparedOpened : Store := (New prepared).2

set_option maxRecDepth 100000

/-- Invariant preservation through a left fold. -/
theorem foldl_invariant {α β : Type} (P : β → Prop) (step : β → α → β)
    (l : List α) (h : ∀ acc a, a ∈ l → P acc → P (step acc a)) :
    ∀ acc : β, P acc → P (l.foldl step acc) := by
  induction l with
  | nil => intro acc h0; exact h0
  | cons x xs ih =>
    intro acc h0
    exact ih (fun acc a ha hp => h acc a (List.mem_cons_of_mem x ha) hp) _
      (h acc x (List.mem_cons_self x xs) h0)

/-- `readDirNames` performs no mutation. -/
theorem readDirNames_state (S : Store) (p : SegPath) :
    (S.readDirNames p).2 = S := by
  unfold Store.readDirNames
  split
  · rfl
  · split <;> rfl

/-- `listAux` performs no mutation, whatever its fuel. -/
theorem listAux_state :
    ∀ (n : Nat) (S : Store) (path : GoStr) (history recursive : Bool),
      (listAux n S path history recursive).2 = S := by
  intro n
  induction n with
  | zero => intro S path h r; rfl
  | succ n ih =>
    intro S path h r
    unfold listAux
    rcases hr : S.readDirNames (realPath path h) with ⟨res, S'⟩
    have hS' : S' = S := by
      have h2 := readDirNames_state S (realPath path h); rw [hr] at h2; exact h2
    subst hS'
    cases res with
    | error e => rfl
    | ok names =>
      refine foldl_invariant
        (fun acc : Except Err (List GoStr) × Store => acc.2 = S') _ _ ?_ _ rfl
      intro acc a _ hp
      rcases acc with ⟨r0, Sa⟩
      cases r0 with
      | error e => exact hp
      | ok listing =>
        simp only at hp
        subst hp
        by_cases h1 : a.1 = gs ".history"
        · simp [h1]
        · simp only [h1, if_false]
          by_cases h2 : r = true ∧ a.2 = true
          · simp only [h2, if_true]
            rcases hrec : listAux n Sa (goJoin path a.1) h true with ⟨cres, Sb⟩
            have hSb : Sb = Sa := by
              have h3 := ih Sa (goJoin path a.1) h true; rw [hrec] at h3; exact h3
            subst hSb
            cases cres <;> rfl
          · simp [h2]

/-- Claim C10: the read-only operations `Open`, `FileHistory`, `List`
and `Stat` never mutate the store for any arguments: each returns the
state it was given unchanged (hence the generation counter, the
current tree and the historic tree are untouched), whether it
succeeds or fails. -/
theorem C10_read_operations_never_mutate (S : Store) (path : GoStr)
    (generation : Nat) (history recursive : Bool) :
    (S.Open path generation).2 = S ∧
    (S.FileHistory path).2 = S ∧
    (S.List path history recursive).2 = S ∧
    (S.Stat path history).2 = S := by
  refine ⟨?_, ?_, ?_, ?_⟩
  · unfold Store.Open
    split <;> rfl
  · unfold Store.FileHistory
    rcases hr : S.readDirNames (dirOf (realPath path true)) with ⟨res, S'⟩
    have hS' : S' = S := by
      have h2 := readDirNames_state S (dirOf (realPath path true))
      rw [hr] at h2; exact h2
    subst hS'
    cases res <;> rfl
  · exact listAux_state (S.maxDepth + 1) S path history recursive
  · unfold Store.Stat
    rcases checkPath path with _ | e
    · rcases S.stat (realPath path history) with _ | d <;> rfl
    · rfl

/-- Claim C4 (amended): in every `Remove` (and `Move`) call whose
capture and primary delete (rename) succeed, the call returns exactly
the result of the subsequent `cleanDirectory` pruning step — so a
pruning failure IS surfaced as the call's error, contrary to the
spec's best-effort description; the primary mutation remains applied
(the returned state is the pruned post-delete state). -/
theorem C4_pruning_result_is_returned :
    (∀ (S : Store) (path : GoStr),
      (S.captureHistory path).1 = none →
      ((S.captureHistory path).2.osRemove (realPath path false)).1 = none →
      S.Remove path =
        cleanDirectory ((S.captureHistory path).2.osRemove (realPath path false)).2
          (dirOf (realPath path false))) ∧
    (∀ (S : Store) (src dst : GoStr),
      (S.captureHistory dst).1 = none →
      ((S.captureHistory dst).2.captureHistory src).1 = none →
      (((S.captureHistory dst).2.captureHistory src).2.osRename
          (realPath src false) (realPath dst false)).1 = none →
      S.Move src dst =
        cleanDirectory (((S.captureHistory dst).2.captureHistory src).2.osRename
            (realPath src false) (realPath dst false)).2
          (dirOf (realPath dst false))) := by
  constructor
  · intro S path h1 h2
    rcases hc : S.captureHistory path with ⟨e1, S1⟩
    cases e1 with
    | some e => rw [hc] at h1; simp at h1
    | none =>
      rcases hr : S1.osRemove (realPath path false) with ⟨e2, S2⟩
      cases e2 with
      | some e => rw [hc] at h2; simp only at h2; rw [hr] at h2; simp at h2
      | none => simp only [Store.Remove, hc, hr]
  · intro S src dst h1 h2 h3
    rcases hc1 : S.captureHistory dst with ⟨e1, S1⟩
    cases e1 with
    | some e => rw [hc1] at h1; simp at h1
    | none =>
      rcases hc2 : S1.captureHistory src with ⟨e2, S2⟩
      cases e2 with
      | some e => rw [hc1] at h2; simp only at h2; rw [hc2] at h2; simp at h2
      | none =>
        rcases hr : S2.osRename (realPath src false) (realPath dst false) with ⟨e3, S3⟩
        cases e3 with
        | some e =>
          rw [hc1] at h3; simp only at h3; rw [hc2] at h3; simp only at h3
          rw [hr] at h3; simp at h3
        | none => simp only [Store.Move, hc1, hc2, hr]

/-- Claim C5 (amended): a path whose *cleaned* form fails the legality
predicate (in particular the empty path, all-dots paths, and paths
whose cleaned form retains an `@`) is rejected with `IllegalPath` by
the operations that consult `checkPath`: `Write`, `Remove`, `Stat`,
and `Move` (through its destination's capture; its source is likewise
checked once the destination capture succeeds).  `Open`, `List` and
`History` perform no such check, and `Copy` checks only its
destination (see the counterexample). -/
theorem C5_checked_operations_reject_illegal_paths :
    (∀ (S : Store) (path content : GoStr),
      checkPath path = some Err.illegalPath →
      S.Write path content = (some Err.illegalPath, S)) ∧
    (∀ (S : Store) (path : GoStr),
      checkPath path = some Err.illegalPath →
      S.Remove path = (some Err.illegalPath, S)) ∧
    (∀ (S : Store) (path : GoStr) (history : Bool),
      checkPath path = some Err.illegalPath →
      S.Stat path history = (Except.error Err.illegalPath, S)) ∧
    (∀ (S : Store) (src dst : GoStr),
      checkPath dst = some Err.illegalPath →
      S.Move src dst = (some Err.illegalPath, S)) ∧
    checkPath (gs "") = some Err.illegalPath ∧
    checkPath (gs "...") = some Err.illegalPath ∧
    checkPath (gs "a@b") = some Err.illegalPath := by
  refine ⟨?_, ?_, ?_, ?_, by decide, by decide, by decide⟩
  · intro S path content h
    simp only [Store.Write, Store.captureHistory, h]
  · intro S path h
    simp only [Store.Remove, Store.captureHistory, h]
  · intro S path history h
    simp only [Store.Stat, h]
  · intro S src dst h
    simp only [Store.Move, Store.captureHistory, h]

theorem strEq_self : ∀ s : GoStr, strEq s s = true := by
  intro s
  induction s with
  | nil => rfl
  | cons c t ih => simp [strEq, ih]

theorem c7_write1 (c : GoStr) :
    (c7Store c).Write (gs "f") c = (none, c7Mid c) := by
  with_unfolding_all rfl

theorem c7_capture2 (c : GoStr) :
    (c7Mid c).captureHistory (gs "f") = (none, c7Mid c) := by
  have hchk : checkPath (gs "f") = none := rfl
  have hex : (c7Mid c).existsNode (realPath (gs "f") false) = true := by
    with_unfolding_all rfl
  have hfh : (c7Mid c).FileHistory (gs "f") = (Except.ok [2], c7Mid c) := by
    with_unfolding_all rfl
  have hcmp : compareFiles (c7Mid c) (realPath (gs "f") false)
      (appendGen (realPath (gs "f") true) 2) = Except.ok true := by
    have h := strEq_self c
    with_unfolding_all
      (exact show Except.ok (strEq c c) = Except.ok true from by rw [h])
  simp [Store.captureHistory, hchk, hex, hfh, hcmp]

theorem c7_write2 (c : GoStr) :
    (c7Mid c).Write (gs "f") c = (none, c7Mid c) := by
  have hcap := c7_capture2 c
  have hmk : (c7Mid c).mkdirAll (dirOf (realPath (gs "f") false)) = (none, c7Mid c) := by
    with_unfolding_all rfl
  have hdir : (c7Mid c).isDir (realPath (gs "f") false) = false := by
    with_unfolding_all rfl
  have hset : (c7Mid c).setFile (realPath (gs "f") false) c = c7Mid c := by
    with_unfolding_all rfl
  simp [Store.Write, hcap, hmk, hdir, hset]

/-- Claim C7 (amended): for every content `c`, when the current file
already holds `c` and no newer historic entry differs from it (here:
empty history), two successive `Write` calls writing the identical
`c` create exactly one new historic entry, not two: the first write
captures the prior content (equal to `c`) as generation 2, and the
second write's capture is suppressed because the newest historic
entry's content equals the current content. -/
theorem C7_identical_writes_dedup_second_capture (c : GoStr) :
    ((c7Store c).Write (gs "f") c).1 = none ∧
    (((c7Store c).Write (gs "f") c).2.Write (gs "f") c).1 = none ∧
    ((((c7Store c).Write (gs "f") c).2.Write (gs "f") c).2.FileHistory (gs "f")).1
      = Except.ok [2] := by
  have h1 := c7_write1 c
  have h2 := c7_write2 c
  have hfh : ((c7Mid c).FileHistory (gs "f")).1 = Except.ok [2] := by
    with_unfolding_all rfl
  simp [h1, h2, hfh]

theorem setFile_gen (S : Store) (p : SegPath) (c : GoStr) :
    (S.setFile p c).Generation = S.Generation := by
  unfold Store.setFile
  split <;> rfl

theorem delFile_gen (S : Store) (p : SegPath) :
    (S.delFile p).Generation = S.Generation := rfl

theorem delDir_gen (S : Store) (p : SegPath) :
    (S.delDir p).Generation = S.Generation := rfl

theorem mkdirAll_gen (S : Store) (p : SegPath) :
    ((S.mkdirAll p).2).Generation = S.Generation := by
  unfold Store.mkdirAll
  split <;> rfl

theorem osRename_gen (S : Store) (a b : SegPath) :
    ((S.osRename a b).2).Generation = S.Generation := by
  unfold Store.osRename
  repeat' split
  all_goals first
    | rfl
    | (show ((S.delFile a).setFile b _).Generation = S.Generation
       rw [setFile_gen, delFile_gen])

theorem renameIgnoring_gen (S : Store) (a b : SegPath) :
    (renameIgnoring S a b).Generation = S.Generation := by
  unfold renameIgnoring
  exact osRename_gen S a b

theorem cleanDirectoryStructure_gen (S : Store) (b : SegPath) :
    ((cleanDirectoryStructure S b).2).Generation = S.Generation := by
  unfold cleanDirectoryStructure
  cases markClean (S.maxDepth + 1) S b with
  | error e => rfl
  | ok unneeded =>
    refine foldl_invariant (fun Sa : Store => Sa.Generation = S.Generation)
      _ _ ?_ _ rfl
    intro acc a _ hp
    split
    · exact hp
    · exact hp

theorem fixChildrenOf_gen :
    ∀ (n : Nat) (S : Store) (base cur : SegPath),
      ((fixChildrenOf n S base cur).2).Generation = S.Generation := by
  intro n
  induction n with
  | zero => intro S base cur; rfl
  | succ n ih =>
    intro S base cur
    unfold fixChildrenOf
    split
    · rfl
    · rfl
    · split
      · rfl
      · refine foldl_invariant
          (fun acc : Option Err × Store => acc.2.Generation = S.Generation)
          _ _ ?_ _ ?_
        · intro acc a _ hp
          rcases acc with ⟨e0, Sa⟩
          cases e0 with
          | some e => exact hp
          | none =>
            simp only at hp
            by_cases hskip : base = cur ∧ a.1 = gs ".history"
            · simp only [hskip, if_true]
              exact hp
            · simp only [hskip, if_false]
              rcases hrec : (if a.2 = true then fixChildrenOf n Sa base (cur ++ [a.1])
                  else (none, Sa)) with ⟨e1, Sb⟩
              have hSb : Sb.Generation = Sa.Generation := by
                rcases ha : a.2 with _ | _
                · rw [ha] at hrec
                  simp only [Bool.false_eq_true, if_false] at hrec
                  cases hrec; rfl
                · rw [ha] at hrec
                  simp only [if_true] at hrec
                  have h2 := ih Sa base (cur ++ [a.1])
                  rw [hrec] at h2; exact h2
              cases e1 with
              | some e => simp only; rw [hSb]; exact hp
              | none =>
                simp only
                split
                · simp only
                  rw [renameIgnoring_gen, hSb]; exact hp
                · simp only
                  rw [hSb]; exact hp
        · rfl

theorem foldl_if_gt_eq_max (l : List Nat) :
    ∀ a : Nat, l.foldl (fun acc g => if g > acc then g else acc) a
      = max a (listMaxNat l) := by
  induction l with
  | nil => intro a; simp [listMaxNat]
  | cons x t ih =>
    intro a
    have hstep : (if x > a then x else a) = max a x := by
      split <;> omega
    calc (x :: t).foldl (fun acc g => if g > acc then g else acc) a
        = t.foldl (fun acc g => if g > acc then g else acc) (if x > a then x else a) := rfl
      _ = max (if x > a then x else a) (listMaxNat t) := ih _
      _ = max (max a x) (listMaxNat t) := by rw [hstep]
      _ = max a (max x (listMaxNat t)) := Nat.max_assoc a x (listMaxNat t)
      _ = max a (listMaxNat (x :: t)) := rfl

theorem initFromTree_gen (S : Store) :
    (initFromTree S).Generation = max S.Generation (listMaxNat (historyGens S)) := by
  unfold initFromTree
  exact foldl_if_gt_eq_max (historyGens S) S.Generation

theorem historyGens_initFromTree (S : Store) :
    historyGens (initFromTree S) = historyGens S := rfl

/-- Claim C6 (amended): for every initial filesystem on which `New`
succeeds, the recovered generation counter equals the maximum of 1
and the largest generation suffix parsed from the historic tree the
scan walks (so it is 1, not 0, when no parseable entry exists). -/
theorem C6_recovered_counter_is_max_with_one (S : Store) (h : (New S).1 = none) :
    (New S).2.Generation = max 1 (listMaxNat (historyGens (New S).2)) := by
  rcases h0 : ({ S with Generation := 1 } : Store).mkdirAll [] with ⟨e0, S1⟩
  cases e0 with
  | some e =>
    have hN : New S = (some e, S1) := by simp only [New, h0]
    rw [hN] at h; simp at h
  | none =>
    rcases h1 : cleanDirectoryStructure S1 [] with ⟨e1, S2⟩
    cases e1 with
    | some e =>
      have hN : New S = (some e, S2) := by simp only [New, h0, h1]
      rw [hN] at h; simp at h
    | none =>
      rcases h2 : fixIllegalFilenames S2 [] with ⟨e2, S3⟩
      cases e2 with
      | some e =>
        have hN : New S = (some e, S3) := by simp only [New, h0, h1, h2]
        rw [hN] at h; simp at h
      | none =>
        rcases h3 : S3.mkdirAll [gs ".history"] with ⟨e3, S4⟩
        cases e3 with
        | some e =>
          have hN : New S = (some e, S4) := by simp only [New, h0, h1, h2, h3]
          rw [hN] at h; simp at h
        | none =>
          have hN : New S = (none, initFromTree S4) := by
            simp only [New, h0, h1, h2, h3]
          have hg1 : S1.Generation = 1 := by
            have hx := mkdirAll_gen { S with Generation := 1 } []
            rw [h0] at hx; exact hx
          have hg2 : S2.Generation = 1 := by
            have hx := cleanDirectoryStructure_gen S1 []
            rw [h1] at hx; rw [hx]; exact hg1
          have hg3 : S3.Generation = 1 := by
            have hx := fixChildrenOf_gen (S2.maxDepth + 1) S2 [] []
            rw [show fixChildrenOf (S2.maxDepth + 1) S2 [] [] = fixIllegalFilenames S2 []
              from rfl, h2] at hx
            rw [hx]; exact hg2
          have hg4 : S4.Generation = 1 := by
            have hx := mkdirAll_gen S3 [gs ".history"]
            rw [h3] at hx; rw [hx]; exact hg3
          rw [hN]
          show (initFromTree S4).Generation
              = max 1 (listMaxNat (historyGens (initFromTree S4)))
          rw [initFromTree_gen, historyGens_initFromTree, hg4]

theorem mem_insertSorted {α : Type} (lt : α → α → Bool) (x y : α) (l : List α) :
    y ∈ insertSorted lt x l ↔ y = x ∨ y ∈ l := by
  induction l with
  | nil => simp [insertSorted]
  | cons z t ih =>
    unfold insertSorted
    split
    · simp [List.mem_cons]
    · simp only [List.mem_cons, ih]
      tauto

theorem mem_sortBy {α : Type} (lt : α → α → Bool) (l : List α) (y : α) :
    y ∈ sortBy lt l ↔ y ∈ l := by
  unfold sortBy
  induction l with
  | nil => simp
  | cons x t ih =>
    simp only [List.foldr, List.mem_cons, mem_insertSorted, ih]

theorem mem_childNames_of_dir (S : Store) (p : SegPath) (d : SegPath)
    (hd : d ∈ S.dirs) (hne : d ≠ []) (hdrop : d.dropLast = p) :
    d.getLastD [] ∈ S.childNames p := by
  unfold Store.childNames
  rw [mem_sortBy, List.mem_dedup, List.mem_append]
  left
  exact List.mem_filterMap.2 ⟨d, hd, by simp [hdrop, hne]⟩

theorem isDir_delDir (S : Store) (q r : SegPath)
    (h : S.isDir r = true) (hne : r ≠ q) :
    (S.delDir q).isDir r = true := by
  unfold Store.isDir at h ⊢
  unfold Store.delDir
  apply decide_eq_true
  exact List.mem_filter.2 ⟨of_decide_eq_true h, by simpa using hne⟩

theorem cleanDirectoryStructure_spares_base (S : Store) (base : SegPath)
    (hb : S.isDir base = true) :
    (cleanDirectoryStructure S base).2.isDir base = true := by
  unfold cleanDirectoryStructure
  cases markClean (S.maxDepth + 1) S base with
  | error e => exact hb
  | ok unneeded =>
    refine foldl_invariant (fun Sa : Store => Sa.isDir base = true) _ _ ?_ _ hb
    intro acc d hd hp
    have hd' : d ∈ unneeded.filter (fun d => ¬ d = base) := (mem_sortBy _ _ _).1 hd
    have hne : ¬ d = base := by
      have h2 := (List.mem_filter.1 hd').2
      simpa using h2
    split
    · exact isDir_delDir acc d base hp (fun h2 => hne h2.symm)
    · exact hp

theorem cleanDirAux_spares (rev : List GoStr) :
    ∀ S : Store, S.isDir [gs ".history"] = true → ¬ gs ".history" ∈ rev →
      ((cleanDirAux S rev).2.isDir [gs ".history"] = true ∧
       (S.isDir [] = true → (cleanDirAux S rev).2.isDir [] = true)) := by
  induction rev with
  | nil =>
    intro S hh _
    unfold cleanDirAux
    split
    · exact ⟨hh, fun h => h⟩
    · exact ⟨hh, fun h => h⟩
    · split
      · exact ⟨hh, fun h => h⟩
      · split
        · exfalso
          rename_i hempty
          have hmem : gs ".history" ∈ S.childNames [] := by
            refine mem_childNames_of_dir S [] [gs ".history"] ?_ (by simp) (by simp)
            exact of_decide_eq_true hh
          rw [hempty] at hmem
          simp at hmem
        · exact ⟨hh, fun h => h⟩
  | cons seg rest ih =>
    intro S hh hnp
    have hseg : ¬ seg = gs ".history" := by
      intro h2; exact hnp (by rw [h2]; exact List.mem_cons_self _ _)
    have hrest : ¬ gs ".history" ∈ rest := by
      intro h2; exact hnp (List.mem_cons_of_mem _ h2)
    have hpne : [gs ".history"] ≠ (seg :: rest).reverse := by
      intro h2
      have h4 := congrArg List.reverse h2
      simp at h4
      exact hseg h4.1.symm
    have hrootne : ([] : SegPath) ≠ (seg :: rest).reverse := by
      intro h2
      have h4 := congrArg List.reverse h2
      simp at h4
    unfold cleanDirAux
    dsimp only
    split
    · exact ⟨hh, fun h => h⟩
    · exact ⟨hh, fun h => h⟩
    · split
      · exact ⟨hh, fun h => h⟩
      · split
        · have hh' : (S.delDir ((seg :: rest).reverse)).isDir [gs ".history"] = true :=
            isDir_delDir S _ _ hh hpne
          obtain ⟨ha, hb⟩ := ih (S.delDir ((seg :: rest).reverse)) hh' hrest
          exact ⟨ha, fun hroot => hb (isDir_delDir S _ _ hroot hrootne)⟩
        · exact ⟨hh, fun h => h⟩

/-- Claim C1: the spec says a capture whose freshly allocated historic
entry name already exists on disk must fail with an error rather than
silently overwrite or silently skip.  The code does refuse to
overwrite (the copy is opened with `O_EXCL`), but the `copy` call's
result is discarded (source line 347), so `captureHistory` returns
success: at the collision state it reports no error, leaves the
existing entry and every other file untouched, and has only consumed
a generation number.  The capture was silently skipped, contradicting
the claim; the discarded error contradicts the spec's stated intent
(`InvariantViolation` is to be surfaced), so this is recorded as a
code bug. -/
theorem C1_collision_capture_silently_succeeds :
    (collisionStore.captureHistory (gs "f")).1 = none ∧
    (collisionStore.captureHistory (gs "f")).2.files = collisionStore.files ∧
    (collisionStore.captureHistory (gs "f")).2.Generation = 6 := by decide

/-- Claim C2 (counterexample): in the spec's scenario on a freshly
opened empty store, the second `Write("dir/file")` does not succeed at
all: its history capture lists the directory `.history/dir`, which
does not exist, so the call fails with the not-found error; `History`
fails the same way (so it is not `[2,1]`), generation 1 was never
created (`Open` at 1 fails), and the current content is still the
first write's `Hello!` rather than `World!`. -/
theorem C2_scenario_counterexample :
    c2w1.1 = none ∧
    c2w2.1 = some Err.notFound ∧
    (c2w2.2.FileHistory (gs "dir/file")).1 = Except.error Err.notFound ∧
    (c2w2.2.Open (gs "dir/file") 1).1 = Except.error Err.notFound ∧
    (c2w2.2.Open (gs "dir/file") 0).1 = Except.ok (gs "Hello!") := by decide

/-- Claim C2 (amended): for a root-level path the scenario does run:
the counter starts at 1, so the single capture (made by the second
write) gets generation 2, giving `History == [2]`, with `Open` at 2
returning `Hello!` and `Open` at 0 returning `World!`. -/
theorem C2_scenario_amended :
    c2v1.1 = none ∧ c2v2.1 = none ∧
    (c2v2.2.FileHistory (gs "file")).1 = Except.ok [2] ∧
    (c2v2.2.Open (gs "file") 2).1 = Except.ok (gs "Hello!") ∧
    (c2v2.2.Open (gs "file") 0).1 = Except.ok (gs "World!") := by decide

/-- Claim C3: the spec says `Move` prunes the source file's parent
directory.  The code instead calls `cleanDirectory` on the parent of
the destination (source line 391), which still contains the file just
moved in, so the call removes nothing: after a successful
`Move("dir/file", "file2")` the emptied source directory `dir` is
still present (and empty) in the current tree.  The pruning call as
written can never remove anything, so this is recorded as a code bug
(`to` where `from` was intended). -/
theorem C3_move_strands_empty_source_directory :
    (moveStore.Move (gs "dir/file") (gs "file2")).1 = none ∧
    (moveStore.Move (gs "dir/file") (gs "file2")).2.getFile [gs "file2"]
      = some (gs "A") ∧
    (moveStore.Move (gs "dir/file") (gs "file2")).2.isDir [gs "dir"] = true ∧
    (moveStore.Move (gs "dir/file") (gs "file2")).2.childNames [gs "dir"] = [] := by
  decide

/-- Claim C4 (counterexample): with the parent directory of `d/f`
unreadable, `Remove("d/f")` captures the content, deletes the current
file — and then returns the pruning step's I/O failure as the call's
error, although the primary delete succeeded: the pruning step is not
best-effort. -/
theorem C4_pruning_failure_surfaced_counterexample :
    (pruneFailStore.Remove (gs "d/f")).1 = some Err.ioFailure ∧
    (pruneFailStore.Remove (gs "d/f")).2.getFile [gs "d", gs "f"] = none ∧
    (pruneFailStore.Remove (gs "d/f")).2.getFile [gs ".history", gs "d", gs "f@2"]
      = some (gs "A") := by decide

/-- Claim C5 (counterexample): `List`, `History` and `Open` accept an
empty path without any legality check — on a fresh store `List("")`
and `History("")` succeed outright and `Open("")` fails only because
reading the opened root directory fails, not with `IllegalPath`; and
even the checked operations accept a path containing `@` when
cleaning removes the offending segment, as `Write("a@b/../c")`
shows. -/
theorem C5_unchecked_operations_counterexample :
    (freshStore.List (gs "") false false).1 = Except.ok [] ∧
    (freshStore.FileHistory (gs "")).1 = Except.ok [] ∧
    (freshStore.Open (gs "") 0).1 = Except.error Err.ioFailure ∧
    checkPath (gs "a@b/../c") = none ∧
    (freshStore.Write (gs "a@b/../c") (gs "z")).1 = none := by decide

/-- Claim C6 (counterexample): opening a store over an empty
filesystem (no historic entries at all) sets the generation counter
to 1, not 0 — the source initializes the counter to 1 before the
scan, and its own test asserts exactly this. -/
theorem C6_fresh_store_counter_is_one :
    (New emptyStore).1 = none ∧
    (New emptyStore).2.Generation = 1 ∧
    ¬ (New emptyStore).2.Generation = 0 := by decide

/-- Claim C7 (counterexample): two successive `Write("f")` calls both
writing `B`, over a current file containing `A` with empty history,
create two historic entries, not one: the first write captures `A`
(generation 2) and the second captures `B` (generation 3), because
the newest entry (`A`) differs from the current content (`B`) at the
second write. -/
theorem C7_identical_writes_two_entries_counterexample :
    c7b1.1 = none ∧ c7b2.1 = none ∧
    (c7a.2.FileHistory (gs "f")).1 = Except.ok [] ∧
    (c7b1.2.FileHistory (gs "f")).1 = Except.ok [2] ∧
    (c7b2.2.FileHistory (gs "f")).1 = Except.ok [3, 2] := by decide

/-- Claim C8 (counterexample): the store-open sweep
`cleanDirectoryStructure` deletes the reserved `.history` directory
itself whenever it holds no regular file — reopening a store that was
never written to removes it (`New` recreates it immediately
afterwards, but the hygiene operation did delete it). -/
theorem C8_open_sweep_deletes_empty_history_dir :
    reopenedStore.isDir [gs ".history"] = true ∧
    (cleanDirectoryStructure reopenedStore []).1 = none ∧
    (cleanDirectoryStructure reopenedStore []).2.isDir [gs ".history"] = false := by
  decide

/-- Claim C9: the fixup is not idempotent towards legality:
`TrimPrefix` strips only a single leading dot per segment, so the
on-disk name `..a` (illegal) is "fixed" to `.a`, which still fails
`checkPath`.  The repository's own `TestFixPath` asserts exactly the
property the claim states, but only samples single-dot names, so this
is recorded as a code bug. -/
theorem C9_fixPath_output_can_remain_illegal :
    checkPath (gs "..a") = some Err.illegalPath ∧
    fixPath (gs "..a") = gs ".a" ∧
    checkPath (fixPath (gs "..a")) = some Err.illegalPath := by decide

/-- Claim C8 (amended): the store-open sweep never deletes the
directory it is invoked on (`New` invokes it on the store root), and
`cleanDirectory` — which `Move`/`Remove` only ever invoke on
current-tree paths, whose segments never include `.history` — never
deletes the reserved `.history` directory nor a non-empty store root:
its upward recursion stops at the first non-empty ancestor, and a
root containing `.history` is never empty.  (What fails in the
original claim is only the sweep's treatment of a file-less
`.history`, per the counterexample.) -/
theorem C8_hygiene_spares_root_and_history :
    (∀ (S : Store) (base : SegPath), S.isDir base = true →
        (cleanDirectoryStructure S base).2.isDir base = true) ∧
    (∀ (S : Store) (p : SegPath),
        S.isDir [gs ".history"] = true → ¬ gs ".history" ∈ p →
        ((cleanDirectory S p).2.isDir [gs ".history"] = true ∧
         (S.isDir [] = true → (cleanDirectory S p).2.isDir [] = true))) := by
  constructor
  · exact cleanDirectoryStructure_spares_base
  · intro S p hh hnp
    unfold cleanDirectory
    exact cleanDirAux_spares p.reverse S hh (by simpa using hnp)

/-- Claim C8 (witness): the amended statement applied to a concrete
store and path. -/
theorem C8_hygiene_spares_root_and_history_witness :
    (cleanDirectory reopenedStore [gs "x"]).2.isDir [gs ".history"] = true :=
  (C8_hygiene_spares_root_and_history.2 reopenedStore [gs "x"]
    (by decide) (by decide)).1

/-- Claim C4 (witness): the amended statement applied to the concrete
store of the counterexample. -/
theorem C4_pruning_result_is_returned_witness :
    pruneFailStore.Remove (gs "d/f") =
      cleanDirectory
        ((pruneFailStore.captureHistory (gs "d/f")).2.osRemove
          (realPath (gs "d/f") false)).2
        (dirOf (realPath (gs "d/f") false)) :=
  C4_pruning_result_is_returned.1 pruneFailStore (gs "d/f") (by decide) (by decide)

/-- Claim C5 (witness): the amended statement applied to a concrete
store and an `@`-containing path. -/
theorem C5_checked_operations_reject_illegal_paths_witness :
    emptyStore.Write (gs "@x") (gs "z") = (some Err.illegalPath, emptyStore) :=
  C5_checked_operations_reject_illegal_paths.1 emptyStore (gs "@x") (gs "z")
    (by decide)

/-- Claim C6 (witness): the amended statement applied to the on-disk
state of the repository's `Infer generation` test. -/
theorem C6_recovered_counter_witness :
    (New inferStore).2.Generation
      = max 1 (listMaxNat (historyGens (New inferStore).2)) :=
  C6_recovered_counter_is_max_with_one inferStore (by decide)


/-- Validation of the embedding against the repository's own unit
tests `TestGetGenerationFromFileName`, `TestCheckPath` and
`TestFixPath`: every table entry evaluates as the Go tests assert. -/
theorem validate_path_function_tests :
    getGenerationFromFileName (gs "") = 0 ∧
    getGenerationFromFileName (gs "@") = 0 ∧
    getGenerationFromFileName (gs "a@") = 0 ∧
    getGenerationFromFileName (gs "abcdefgh@") = 0 ∧
    getGenerationFromFileName (gs "abcde/abcdefgh@") = 0 ∧
    getGenerationFromFileName (gs "145") = 0 ∧
    getGenerationFromFileName (gs "@1") = 1 ∧
    getGenerationFromFileName (gs "@324") = 324 ∧
    getGenerationFromFileName (gs "a@165") = 165 ∧
    getGenerationFromFileName (gs "abcdefgh@431") = 431 ∧
    getGenerationFromFileName (gs "abcde/abcdefgh@975") = 975 ∧
    getGenerationFromFileName (gs "abcde@431/abcdefgh@975") = 975 ∧
    getGenerationFromFileName (gs "abcde@431/abcdefgh@") = 0 ∧
    getGenerationFromFileName (gs "abcde@431/ab@cdefgh") = 0 ∧
    getGenerationFromFileName (gs "abcde@431/abcdefgh") = 0 ∧
    checkPath (gs "simple/path") = none ∧
    checkPath (gs "/simple/path") = none ∧
    checkPath (gs "/file/with/extension.txt") = none ∧
    checkPath (gs "/doubled//slash") = none ∧
    checkPath (gs "") = some Err.illegalPath ∧
    checkPath (gs ".") = some Err.illegalPath ∧
    checkPath (gs "..") = some Err.illegalPath ∧
    checkPath (gs "/") = some Err.illegalPath ∧
    checkPath (gs "/////") = some Err.illegalPath ∧
    checkPath (gs "a/hidden/.file") = some Err.illegalPath ∧
    checkPath (gs "a/.hidden/directory") = some Err.illegalPath ∧
    checkPath (gs "file/with/version@123") = some Err.illegalPath ∧
    checkPath (gs "directory/with/version@123/number") = some Err.illegalPath ∧
    checkPath (fixPath (gs "a/hidden/.file")) = none ∧
    checkPath (fixPath (gs "a/.hidden/directory")) = none ∧
    checkPath (fixPath (gs "file/with/version@123")) = none ∧
    checkPath (fixPath (gs "directory/with/version@123/number")) = none ∧
    fixPath (gs "simple/path") = goClean (gs "simple/path") ∧
    fixPath (gs "/doubled//slash") = goClean (gs "/doubled//slash") := by decide

/-- Validation of the embedding against the repository's
`TestRealPath` table (paths relative to the abstracted root). -/
theorem validate_realPath_tests :
    realPath (gs "/simple/path") false = [gs "simple", gs "path"] ∧
    realPath (gs "simple/path") false = [gs "simple", gs "path"] ∧
    realPath (gs "../../try/to/escape") false = [gs "try", gs "to", gs "escape"] ∧
    realPath (gs "more/../..//../complicated") false = [gs "complicated"] ∧
    realPath (gs "/../../try/to/escape") false = [gs "try", gs "to", gs "escape"] ∧
    realPath (gs "/more/../..//../complicated") false = [gs "complicated"] ∧
    realPath (gs "/simple/path") true = [gs ".history", gs "simple", gs "path"] ∧
    realPath (gs "../../try/to/escape") true
      = [gs ".history", gs "try", gs "to", gs "escape"] := by decide

/-- Validation of the embedding against the repository's store tests:
opening the mock store recovers generation 123 and prunes the empty
directories (`TestStore`); `List` returns exactly the listings of
`TestList`; `FileHistory` returns `[123]` for each spelling of the
path in `TestFileHistory`; `captureHistory` advances the counter to
124 and stores a byte-identical copy (`TestCaptureHistory`); `Open`
reads back current and historic content (`TestOpen`). -/
theorem validate_store_tests :
    (New prepared).1 = none ∧
    preparedOpened.Generation = 123 ∧
    preparedOpened.stat (realPath (gs "empty") false) = none ∧
    (preparedOpened.List (gs "") false true).1
      = Except.ok [gs "dir/dir2/file3", gs "dir/file", gs "dir/file2"] ∧
    (preparedOpened.List (gs "") false false).1 = Except.ok [] ∧
    (preparedOpened.List (gs "") true true).1 = Except.ok [gs "dir/file@123"] ∧
    (preparedOpened.List (gs "dir/dir2/") false true).1
      = Except.ok [gs "dir/dir2/file3"] ∧
    (preparedOpened.FileHistory (gs "dir/file")).1 = Except.ok [123] ∧
    (preparedOpened.FileHistory (gs "/dir/file")).1 = Except.ok [123] ∧
    (preparedOpened.FileHistory (gs "/dir//file/")).1 = Except.ok [123] ∧
    (preparedOpened.captureHistory (gs "dir/file")).1 = none ∧
    (preparedOpened.captureHistory (gs "dir/file")).2.Generation = 124 ∧
    ((preparedOpened.captureHistory (gs "dir/file")).2.FileHistory
      (gs "dir/file")).1 = Except.ok [124, 123] ∧
    (preparedOpened.captureHistory (gs "dir/file")).2.getFile
      [gs ".history", gs "dir", gs "file@124"] = some (gs "Hello!") ∧
    (preparedOpened.Open (gs "dir/file") 0).1 = Except.ok (gs "Hello!") ∧
    (preparedOpened.Open (gs "dir/file") 123).1 = Except.ok (gs "") := by decide

/-- Validation of the embedding against `TestCopy`, `TestMove`,
`TestRemove` and `TestCleanDirectory`. -/
theorem validate_mutation_tests :
    (preparedOpened.Copy (gs "dir/file") (gs "dir/file2")).1 = none ∧
    ((preparedOpened.Copy (gs "dir/file") (gs "dir/file2")).2.Open
      (gs "dir/file2") 0).1 = Except.ok (gs "Hello!") ∧
    ((preparedOpened.Copy (gs "dir/file") (gs "dir/file2")).2.FileHistory
      (gs "dir/file2")).1 = Except.ok [124] ∧
    (preparedOpened.Move (gs "dir/file") (gs "dir/file2")).1 = none ∧
    ((preparedOpened.Move (gs "dir/file") (gs "dir/file2")).2.Move
      (gs "dir/file") (gs "dir/file5")).1 = some Err.notFound ∧
    ((preparedOpened.Move (gs "dir/file") (gs "dir/file2")).2.Open
      (gs "dir/file2") 0).1 = Except.ok (gs "Hello!") ∧
    (preparedOpened.Remove (gs "dir/file")).1 = none ∧
    ((preparedOpened.Remove (gs "dir/file")).2.Open (gs "dir/file") 0).1
      = Except.error Err.notFound ∧
    ((preparedOpened.Remove (gs "dir/file")).2.FileHistory (gs "dir/file")).1
      = Except.ok [124, 123] := by decide
